import Mathlib

/-
Verification development for the asteroids arcade game in src/app.py.

The per-tick simulation of app.py is embedded shallowly:

* pygame Vector2 components (Python floats) are modelled as exact
  rationals, so float arithmetic is idealised as exact arithmetic;
* pygame Rect values are quadruples of integers, and the center-based
  rect constructor and colliderect test follow pygame semantics
  (left = center - width / 2 with floor division, half-open overlap);
* sprite groups are modelled as lists; kill removes from the list;
* trigonometric values cos and sin of the relevant angles cannot be
  represented exactly in the rationals, so every function of app.py
  that consumes them takes the pair of values as explicit parameters
  (documented at each definition); no other behaviour depends on them.
-/

/-- Field width from app.py (WIDTH = 800). -/
def fieldW : ℚ := 800

/-- Field height from app.py (HEIGHT = 600). -/
def fieldH : ℚ := 600

/-- Thrust acceleration constant from app.py (PLAYER_SPEED = 0.25). -/
def playerSpeed : ℚ := 1/4

/-- Rotation step in degrees per frame from app.py (ROTATION_SPEED = 5). -/
def rotationSpeed : ℚ := 5

/-- Bullet speed constant from app.py (BULLET_SPEED = 7). -/
def bulletSpeed : ℚ := 7

/-- Bullet lifetime in frames from app.py (BULLET_LIFETIME = 60). -/
def bulletLifetime : ℤ := 60

/-- Python modulo on rationals: result of x % m for floats, which has the
sign of the divisor and equals x - m * floor (x / m). -/
def qmod (a b : ℚ) : ℚ := a - b * (⌊a / b⌋ : ℤ)

/-- Componentwise wrap over an arbitrary field size; wrap_position of
app.py is this applied at size 800 by 600. -/
def wrapPos (w h : ℚ) (p : ℚ × ℚ) : ℚ × ℚ := (qmod p.1 w, qmod p.2 h)

/-- wrap_position from app.py lines 33 to 41: v.x % WIDTH, v.y % HEIGHT. -/
def wrap_position (p : ℚ × ℚ) : ℚ × ℚ := wrapPos fieldW fieldH p

/-- Python int() conversion on a rational: truncation toward zero. -/
def pyInt (q : ℚ) : ℤ := if 0 ≤ q then ⌊q⌋ else -⌊-q⌋

/-- In-bounds predicate for the 800 by 600 field of app.py. -/
def inBounds (p : ℚ × ℚ) : Prop :=
  0 ≤ p.1 ∧ p.1 < fieldW ∧ 0 ≤ p.2 ∧ p.2 < fieldH

instance (p : ℚ × ℚ) : Decidable (inBounds p) := by
  unfold inBounds; infer_instance

lemma qmod_nonneg (a : ℚ) {b : ℚ} (hb : 0 < b) : 0 ≤ qmod a b := by
  have h1 : ((⌊a / b⌋ : ℤ) : ℚ) ≤ a / b := Int.floor_le (a / b)
  have h2 : b * ((⌊a / b⌋ : ℤ) : ℚ) ≤ b * (a / b) :=
    mul_le_mul_of_nonneg_left h1 (le_of_lt hb)
  have h3 : b * (a / b) = a := mul_div_cancel₀ a (ne_of_gt hb)
  unfold qmod
  linarith

lemma qmod_lt (a : ℚ) {b : ℚ} (hb : 0 < b) : qmod a b < b := by
  have h1 : a / b < ((⌊a / b⌋ : ℤ) : ℚ) + 1 := Int.lt_floor_add_one (a / b)
  have h2 : b * (a / b) < b * (((⌊a / b⌋ : ℤ) : ℚ) + 1) :=
    (mul_lt_mul_left hb).mpr h1
  have h3 : b * (a / b) = a := mul_div_cancel₀ a (ne_of_gt hb)
  unfold qmod
  nlinarith

lemma qmod_eq_self {a b : ℚ} (hb : 0 < b) (h0 : 0 ≤ a) (h1 : a < b) :
    qmod a b = a := by
  have hfl : ⌊a / b⌋ = 0 := by
    rw [Int.floor_eq_zero_iff]
    constructor
    · exact div_nonneg h0 (le_of_lt hb)
    · rw [div_lt_one hb]; exact h1
  unfold qmod
  rw [hfl]
  push_cast
  ring

lemma wrapPos_mem {w h : ℚ} (hw : 0 < w) (hh : 0 < h) (p : ℚ × ℚ) :
    0 ≤ (wrapPos w h p).1 ∧ (wrapPos w h p).1 < w ∧
    0 ≤ (wrapPos w h p).2 ∧ (wrapPos w h p).2 < h := by
  exact ⟨qmod_nonneg p.1 hw, qmod_lt p.1 hw, qmod_nonneg p.2 hh, qmod_lt p.2 hh⟩

lemma wrapPos_idem {w h : ℚ} (hw : 0 < w) (hh : 0 < h) (p : ℚ × ℚ) :
    wrapPos w h (wrapPos w h p) = wrapPos w h p := by
  obtain ⟨h1, h2, h3, h4⟩ := wrapPos_mem hw hh p
  unfold wrapPos at *
  exact Prod.ext (qmod_eq_self hw h1 h2) (qmod_eq_self hh h3 h4)

lemma inBounds_wrap_position (p : ℚ × ℚ) : inBounds (wrap_position p) := by
  have hw : (0:ℚ) < fieldW := by norm_num [fieldW]
  have hh : (0:ℚ) < fieldH := by norm_num [fieldH]
  exact wrapPos_mem hw hh p

/-- Ship state from class Player of app.py: position, velocity (Vector2)
and angle in degrees (0 means facing up). -/
structure Player where
  position : ℚ × ℚ
  velocity : ℚ × ℚ
  angle : ℚ
deriving DecidableEq

/-- Bullet state from class Bullet of app.py: position, velocity and the
remaining lifetime counter initialised to BULLET_LIFETIME. -/
structure Bullet where
  position : ℚ × ℚ
  velocity : ℚ × ℚ
  lifetime : ℤ
deriving DecidableEq

/-- Asteroid state from class Asteroid of app.py: position, velocity and
bounding size (ASTEROID_SIZE = 50 by default). -/
structure Asteroid where
  position : ℚ × ℚ
  velocity : ℚ × ℚ
  size : ℤ
deriving DecidableEq

/-- Held keys sampled by pygame.key.get_pressed at the top of a tick:
left and right arrows, up arrow (thrust) and escape. -/
structure Keys where
  left : Bool
  right : Bool
  up : Bool
  escape : Bool
deriving DecidableEq

/-- Events returned by pygame.event.get in one tick: window quit, a
key-down of the space bar, any other key-down, or any other event. -/
inductive Event where
  | quit
  | keydownSpace
  | keydownOther
  | other
deriving DecidableEq

/-- Velocity of the ship after the thrust branch of Player.update
(app.py lines 81 to 85).  The parameters c and s stand for
cos (radians angle) and sin (radians angle) of the ship angle after the
rotation branch, the only use the source makes of them. -/
def Player.thrustVel (p : Player) (keys : Keys) (c s : ℚ) : ℚ × ℚ :=
  if keys.up
  then (p.velocity.1 + c * playerSpeed, p.velocity.2 - s * playerSpeed)
  else p.velocity

/-- Player.update from app.py lines 72 to 96: rotate by the held arrow
keys, add thrust along the current angle when up is held, translate by
the velocity, wrap, then multiply the velocity by the drag factor 0.99.
The parameters c and s are cos and sin of the post-rotation angle in
radians, as in Player.thrustVel. -/
def Player.update (p : Player) (keys : Keys) (c s : ℚ) : Player :=
  let a2 := p.angle + (if keys.left then rotationSpeed else 0)
                    - (if keys.right then rotationSpeed else 0)
  let v := p.thrustVel keys c s
  { position := wrap_position (p.position.1 + v.1, p.position.2 + v.2),
    velocity := (99/100 * v.1, 99/100 * v.2),
    angle := a2 }

/-- Player.shoot from app.py lines 98 to 127.  The source computes
bullet_angle = radians angle + pi / 2 and uses cos bullet_angle and
sin bullet_angle for both the 15 pixel muzzle offset and the bullet
velocity; the parameters cb and sb stand for those two values. -/
def Player.shoot (p : Player) (cb sb : ℚ) : Bullet :=
  let offsetX := cb * 15
  let offsetY := -sb * 15
  { position := (p.position.1 + offsetX, p.position.2 + offsetY),
    velocity := (cb * bulletSpeed, -sb * bulletSpeed),
    lifetime := bulletLifetime }

/-- Bullet.update from app.py lines 139 to 147: translate, wrap and
decrement the lifetime.  The kill call for lifetime at zero or below is
modelled by the filter in bulletsStep. -/
def Bullet.update (b : Bullet) : Bullet :=
  { position := wrap_position (b.position.1 + b.velocity.1,
                               b.position.2 + b.velocity.2),
    velocity := b.velocity,
    lifetime := b.lifetime - 1 }

/-- One bullets_group.update pass: every bullet is updated, and a bullet
whose decremented lifetime is zero or below kills itself, leaving the
live collection. -/
def bulletsStep (bs : List Bullet) : List Bullet :=
  (bs.map Bullet.update).filter (fun b => decide (0 < b.lifetime))

/-- Asteroid.update from app.py lines 176 to 179: translate and wrap;
the velocity is constant. -/
def Asteroid.update (a : Asteroid) : Asteroid :=
  { position := wrap_position (a.position.1 + a.velocity.1,
                               a.position.2 + a.velocity.2),
    velocity := a.velocity,
    size := a.size }

/-- pygame Rect: integer left, top, width and height. -/
structure Rect where
  left : ℤ
  top : ℤ
  width : ℤ
  height : ℤ
deriving DecidableEq

/-- pygame Surface.get_rect with a given center: the left and top are
the center coordinates converted by int() minus half the size with
floor division, as in the rect center setter of pygame. -/
def centerRect (c : ℚ × ℚ) (w h : ℤ) : Rect :=
  { left := pyInt c.1 - w / 2, top := pyInt c.2 - h / 2,
    width := w, height := h }

/-- pygame Rect.colliderect: half-open rectangle overlap test. -/
def Rect.colliderect (a b : Rect) : Bool :=
  decide (a.left < b.left + b.width ∧ a.left + a.width > b.left ∧
          a.top < b.top + b.height ∧ a.top + a.height > b.top)

/-- Bounding rect of a bullet: its 5 by 5 surface centered at the
current position (app.py lines 132 to 134 and 143). -/
def Bullet.rect (b : Bullet) : Rect := centerRect b.position 5 5

/-- Bounding rect of an asteroid: its size by size surface centered at
the current position (app.py lines 153 to 155 and 179). -/
def Asteroid.rect (a : Asteroid) : Rect := centerRect a.position a.size a.size

/-- Bounding rect of the ship: the 30 by 30 sprite centered at the
current position (app.py lines 56 and 96).  This is exact for angles
that are multiples of 360; rotation by other angles only enlarges the
pygame bounding rect around the same center. -/
def Player.rect (p : Player) : Rect := centerRect p.position 30 30

/-- The bullet versus asteroid collision pass of app.py lines 218 to
222: each bullet in turn is tested against the asteroids still live;
pygame.sprite.spritecollide with dokill removes every asteroid whose
rect overlaps the bullet, and the bullet kills itself when that hit
list is nonempty.  Returns the surviving bullets and asteroids. -/
def bulletAsteroidPass : List Bullet → List Asteroid →
    List Bullet × List Asteroid
  | [], asts => ([], asts)
  | b :: bs, asts =>
    let live := asts.filter fun a => !(Rect.colliderect b.rect a.rect)
    let rest := bulletAsteroidPass bs live
    if asts.any (fun a => Rect.colliderect b.rect a.rect)
    then (rest.1, rest.2)
    else (b :: rest.1, rest.2)

/-- pygame.sprite.spritecollideany of the ship against the asteroid
group (app.py line 226): true when some live asteroid rect overlaps the
ship rect. -/
def spritecollideany (p : Player) (asts : List Asteroid) : Bool :=
  asts.any fun a => Rect.colliderect p.rect a.rect

/-- Whole state of the run: the ship, both sprite groups, and the
running flag of the main loop. -/
structure GameState where
  player : Player
  bullets : List Bullet
  asteroids : List Asteroid
  running : Bool
deriving DecidableEq

/-- The event loop of app.py lines 204 to 206 as far as the running
flag goes: every event, of any type, sets running to False when it is a
quit event or the escape key is held this tick. -/
def runningAfterEvents (escape : Bool) (events : List Event) (r : Bool) :
    Bool :=
  events.foldl (fun acc e => if e = Event.quit ∨ escape then false else acc) r

/-- The event loop of app.py lines 207 to 211 as far as bullets go: for
every key-down event of the space bar, player.shoot is called on the
current (pre-update) ship state and the bullet joins the group.  The
parameters cb and sb are as in Player.shoot. -/
def bulletsFromEvents (p : Player) (cb sb : ℚ) (events : List Event) :
    List Bullet :=
  events.filterMap fun e =>
    if e = Event.keydownSpace then some (p.shoot cb sb) else none

/-- The ship versus asteroid check of app.py lines 225 to 228 together
with the final state of one loop iteration: the asteroid group is only
read, and on any overlap the running flag is cleared. -/
def shipCheckStage (p : Player) (bs : List Bullet) (asts : List Asteroid)
    (r : Bool) : GameState :=
  { player := p, bullets := bs, asteroids := asts,
    running := if spritecollideany p asts then false else r }

/-- One iteration of the main loop of app.py lines 196 to 235: process
events (running flag and fired bullets), update the ship, the bullets
and the asteroids, run the bullet versus asteroid pass, then the ship
versus asteroid check.  The parameters c and s are cos and sin of the
post-rotation ship angle in radians, and cb and sb are cos and sin of
the bullet angle as in Player.shoot. -/
def tick (keys : Keys) (events : List Event) (c s cb sb : ℚ)
    (st : GameState) : GameState :=
  let r1 := runningAfterEvents keys.escape events st.running
  let newBullets := bulletsFromEvents st.player cb sb events
  let p1 := st.player.update keys c s
  let bullets1 := bulletsStep (st.bullets ++ newBullets)
  let asts1 := st.asteroids.map Asteroid.update
  let res := bulletAsteroidPass bullets1 asts1
  shipCheckStage p1 res.1 res.2 r1

/-- Squared euclidean norm of a velocity, used to compare speeds. -/
def normSq (v : ℚ × ℚ) : ℚ := v.1 * v.1 + v.2 * v.2

/-- The key state with nothing held, for coasting without input. -/
def noKeys : Keys := ⟨false, false, false, false⟩

/-- The ship state after n ticks of coasting with no input held. -/
def coast (n : ℕ) (p : Player) : Player :=
  (fun q => Player.update q noKeys 0 0)^[n] p

/-- Direction vector written by Player.shoot from the cosine and sine of
the bullet angle: (cos, -sin) in screen coordinates. -/
def dirVec (cb sb : ℚ) : ℚ × ℚ := (cb, -sb)

/-- C3: for every position p and field size (w, h) with w, h positive,
wrap is idempotent and its result lies in [0, w) by [0, h); and the
position written by each entity update of app.py is a wrapped position,
hence in bounds after every tick. -/
theorem wrap_idempotent_and_in_range (w h : ℚ) (hw : 0 < w) (hh : 0 < h)
    (p : ℚ × ℚ) :
    wrapPos w h (wrapPos w h p) = wrapPos w h p ∧
    (0 ≤ (wrapPos w h p).1 ∧ (wrapPos w h p).1 < w ∧
     0 ≤ (wrapPos w h p).2 ∧ (wrapPos w h p).2 < h) ∧
    (∀ (q : Player) (keys : Keys) (c s : ℚ),
       inBounds (q.update keys c s).position) ∧
    (∀ b : Bullet, inBounds b.update.position) ∧
    (∀ a : Asteroid, inBounds a.update.position) := by
  refine ⟨wrapPos_idem hw hh p, wrapPos_mem hw hh p, ?_, ?_, ?_⟩
  · intro q keys c s
    exact inBounds_wrap_position _
  · intro b
    exact inBounds_wrap_position _
  · intro a
    exact inBounds_wrap_position _

/-- Witness for wrap_idempotent_and_in_range at w = 800, h = 600 and
p = (1000, -5). -/
theorem wrap_idempotent_and_in_range_witness :
    (0:ℚ) < 800 ∧ (0:ℚ) < 600 ∧
    (wrapPos 800 600 (wrapPos 800 600 (1000, -5)) =
       wrapPos 800 600 (1000, -5) ∧
     (0 ≤ (wrapPos 800 600 ((1000 : ℚ), (-5 : ℚ))).1 ∧
      (wrapPos 800 600 ((1000 : ℚ), (-5 : ℚ))).1 < 800 ∧
      0 ≤ (wrapPos 800 600 ((1000 : ℚ), (-5 : ℚ))).2 ∧
      (wrapPos 800 600 ((1000 : ℚ), (-5 : ℚ))).2 < 600) ∧
     (∀ (q : Player) (keys : Keys) (c s : ℚ),
        inBounds (q.update keys c s).position) ∧
     (∀ b : Bullet, inBounds b.update.position) ∧
     (∀ a : Asteroid, inBounds a.update.position)) :=
  ⟨by norm_num, by norm_num,
   wrap_idempotent_and_in_range 800 600 (by norm_num) (by norm_num) (1000, -5)⟩

/-- C9: wrap computes a mathematical, always-non-negative modulo
componentwise, so a negative coordinate wraps to the opposite edge, and
an asteroid at (w - 1, y) moving with velocity (+2, 0) is at (1, y)
after one update, not clamped to 0. -/
theorem wrap_is_mathematical_modulo (x y : ℚ) (hx0 : -800 ≤ x)
    (hx1 : x < 0) (hy0 : 0 ≤ y) (hy1 : y < 600) :
    wrap_position (x, y) = (x + 800, y) ∧
    ∀ v2 sz, (Asteroid.update ⟨(799, y), (2, v2), sz⟩).position =
      (1, qmod (y + v2) 600) ∧
      (Asteroid.update ⟨(799, y), (2, 0), sz⟩).position = (1, y) := by
  have h600 : (0:ℚ) < 600 := by norm_num
  have h800 : (0:ℚ) < 800 := by norm_num
  have hqy : qmod y 600 = y := qmod_eq_self h600 hy0 hy1
  have hx : qmod x 800 = x + 800 := by
    have hfl : ⌊x / 800⌋ = -1 := by
      rw [Int.floor_eq_iff]
      constructor
      · push_cast
        rw [le_div_iff₀ h800]
        linarith
      · push_cast
        have : x / 800 < 0 := div_neg_of_neg_of_pos hx1 h800
        linarith
    unfold qmod
    rw [hfl]
    push_cast
    ring
  have h801 : qmod 801 800 = 1 := by norm_num [qmod]
  refine ⟨?_, ?_⟩
  · show (qmod x 800, qmod y 600) = (x + 800, y)
    rw [hx, hqy]
  · intro v2 sz
    constructor
    · show wrap_position ((799 : ℚ) + 2, y + v2) = (1, qmod (y + v2) 600)
      show (qmod ((799 : ℚ) + 2) 800, qmod (y + v2) 600) = _
      norm_num [h801]
    · show wrap_position ((799 : ℚ) + 2, y + 0) = (1, y)
      show (qmod ((799 : ℚ) + 2) 800, qmod (y + 0) 600) = _
      rw [add_zero, hqy]
      norm_num [h801]

/-- Witness for wrap_is_mathematical_modulo at x = -5 and y = 300. -/
theorem wrap_is_mathematical_modulo_witness :
    (-800 ≤ (-5 : ℚ) ∧ (-5 : ℚ) < 0 ∧ (0:ℚ) ≤ 300 ∧ (300:ℚ) < 600) ∧
    (wrap_position (-5, 300) = (-5 + 800, 300) ∧
     ∀ v2 sz, (Asteroid.update ⟨(799, 300), (2, v2), sz⟩).position =
       (1, qmod (300 + v2) 600) ∧
       (Asteroid.update ⟨(799, (300:ℚ)), ((2:ℚ), 0), sz⟩).position = (1, 300)) :=
  ⟨⟨by norm_num, by norm_num, by norm_num, by norm_num⟩,
   wrap_is_mathematical_modulo (-5) 300 (by norm_num) (by norm_num)
     (by norm_num) (by norm_num)⟩

/-- C5: a fire command creates the bullet at
position + 15 muzzle pixels along (cos bulletAngle, -sin bulletAngle),
where bulletAngle is the ship heading in radians plus 90 degrees, and
the bullet velocity is the fixed bullet speed 7 along the identical
direction vector. -/
theorem shoot_offset_and_velocity_same_direction (p : Player) (cb sb : ℚ) :
    (p.shoot cb sb).position = p.position + (15 : ℚ) • dirVec cb sb ∧
    (p.shoot cb sb).velocity = bulletSpeed • dirVec cb sb := by
  constructor
  · show (p.position.1 + cb * 15, p.position.2 + -sb * 15) = _
    have h1 : (p.position + (15 : ℚ) • dirVec cb sb).1 =
        p.position.1 + 15 * cb := by
      simp [dirVec, Prod.smul_def, smul_eq_mul]
    have h2 : (p.position + (15 : ℚ) • dirVec cb sb).2 =
        p.position.2 + 15 * -sb := by
      simp [dirVec, Prod.smul_def, smul_eq_mul]
    refine Prod.ext ?_ ?_
    · rw [h1]; ring
    · rw [h2]; ring
  · show (cb * bulletSpeed, -sb * bulletSpeed) = _
    refine Prod.ext ?_ ?_
    · simp [dirVec, Prod.smul_def, smul_eq_mul]
      ring
    · simp [dirVec, Prod.smul_def, smul_eq_mul]
      ring

/-- C10: the bullet created by Player.shoot is not wrapped at creation:
a ship at (790, 300) facing so that the bullet direction points along
positive x (heading -90 degrees, so cos bulletAngle = 1 and
sin bulletAngle = 0) spawns the bullet at (805, 300), outside the 800
by 600 field; the in-bounds invariant is restored by the first
Bullet.update, which always wraps. -/
theorem bullet_spawn_not_wrapped :
    (Player.shoot ⟨(790, 300), (0, 0), -90⟩ 1 0).position =
      ((805 : ℚ), (300 : ℚ)) ∧
    ¬ inBounds ((805 : ℚ), (300 : ℚ)) ∧
    ∀ b : Bullet, inBounds b.update.position := by
  refine ⟨?_, ?_, ?_⟩
  · show ((790 : ℚ) + 1 * 15, (300 : ℚ) + -0 * 15) = _
    norm_num
  · norm_num [inBounds, fieldW, fieldH]
  · intro b
    exact inBounds_wrap_position _

lemma update_velocity_drag (q : Player) (keys : Keys) (c s : ℚ) :
    (q.update keys c s).velocity = (99/100 : ℚ) • q.thrustVel keys c s := by
  show ((99:ℚ)/100 * (q.thrustVel keys c s).1,
        (99:ℚ)/100 * (q.thrustVel keys c s).2) = _
  refine Prod.ext ?_ ?_ <;> simp [Prod.smul_def, smul_eq_mul]

lemma update_position_eq (q : Player) (keys : Keys) (c s : ℚ) :
    (q.update keys c s).position =
      wrap_position (q.position.1 + (q.thrustVel keys c s).1,
                     q.position.2 + (q.thrustVel keys c s).2) := rfl

lemma coast_succ (n : ℕ) (p : Player) :
    coast (n + 1) p = Player.update (coast n p) noKeys 0 0 :=
  Function.iterate_succ_apply' _ n p

lemma coast_velocity_succ (n : ℕ) (p : Player) :
    (coast (n + 1) p).velocity = (99/100 : ℚ) • (coast n p).velocity := by
  rw [coast_succ, update_velocity_drag]
  simp [Player.thrustVel, noKeys]

lemma coast_velocity_ne (p : Player) (h : p.velocity ≠ 0) (n : ℕ) :
    (coast n p).velocity ≠ 0 := by
  induction n with
  | zero => exact h
  | succ k ih =>
    rw [coast_velocity_succ]
    exact smul_ne_zero (by norm_num) ih

lemma normSq_smul (a : ℚ) (v : ℚ × ℚ) :
    normSq (a • v) = a ^ 2 * normSq v := by
  simp [normSq, Prod.smul_def, smul_eq_mul]
  ring

lemma normSq_pos {v : ℚ × ℚ} (h : v ≠ 0) : 0 < normSq v := by
  by_cases h1 : v.1 = 0
  · have h2 : v.2 ≠ 0 := by
      intro h2
      exact h (Prod.ext (by simpa using h1) (by simpa using h2))
    have := mul_self_pos.mpr h2
    have := mul_self_nonneg v.1
    unfold normSq
    nlinarith
  · have := mul_self_pos.mpr h1
    have := mul_self_nonneg v.2
    unfold normSq
    nlinarith

/-- C6: every Player.update multiplies the velocity by the constant drag
factor 99/100 after computing the new position from the pre-drag
velocity, whatever the input; hence while coasting with no input the
squared speed strictly decreases whenever the velocity is nonzero, and
the velocity never becomes exactly zero after finitely many ticks. -/
theorem drag_strict_decay (p : Player) (n : ℕ) (h : p.velocity ≠ 0) :
    (∀ (q : Player) (keys : Keys) (c s : ℚ),
       (q.update keys c s).velocity = (99/100 : ℚ) • q.thrustVel keys c s ∧
       (q.update keys c s).position =
         wrap_position (q.position.1 + (q.thrustVel keys c s).1,
                        q.position.2 + (q.thrustVel keys c s).2)) ∧
    (coast (n + 1) p).velocity = (99/100 : ℚ) • (coast n p).velocity ∧
    normSq (coast (n + 1) p).velocity < normSq (coast n p).velocity ∧
    (coast n p).velocity ≠ 0 := by
  have hne := coast_velocity_ne p h n
  refine ⟨fun q keys c s => ⟨update_velocity_drag q keys c s,
    update_position_eq q keys c s⟩, coast_velocity_succ n p, ?_, hne⟩
  rw [coast_velocity_succ, normSq_smul]
  have hpos := normSq_pos hne
  nlinarith

/-- Witness for drag_strict_decay at a ship with velocity (1, 0) and
n = 2 coasting ticks. -/
theorem drag_strict_decay_witness :
    (Player.velocity ⟨(400, 300), (1, 0), 0⟩ ≠ 0) ∧
    ((∀ (q : Player) (keys : Keys) (c s : ℚ),
        (q.update keys c s).velocity = (99/100 : ℚ) • q.thrustVel keys c s ∧
        (q.update keys c s).position =
          wrap_position (q.position.1 + (q.thrustVel keys c s).1,
                         q.position.2 + (q.thrustVel keys c s).2)) ∧
     (coast 3 ⟨(400, 300), (1, 0), 0⟩).velocity =
       (99/100 : ℚ) • (coast 2 ⟨(400, 300), (1, 0), 0⟩).velocity ∧
     normSq (coast 3 ⟨(400, 300), (1, 0), 0⟩).velocity <
       normSq (coast 2 ⟨(400, 300), (1, 0), 0⟩).velocity ∧
     (coast 2 ⟨((400:ℚ), (300:ℚ)), ((1:ℚ), (0:ℚ)), (0:ℚ)⟩).velocity ≠ 0) :=
  ⟨by norm_num [Prod.ext_iff], drag_strict_decay _ 2 (by norm_num [Prod.ext_iff])⟩

lemma bullet_iterate_lifetime (b : Bullet) (k : ℕ) :
    (Bullet.update^[k] b).lifetime = b.lifetime - k := by
  induction k with
  | zero => simp
  | succ j ih =>
    rw [Function.iterate_succ_apply']
    show (Bullet.update^[j] b).lifetime - 1 = _
    rw [ih]
    push_cast
    ring

lemma bulletsStep_nil : bulletsStep [] = [] := rfl

lemma bulletsStep_singleton (b : Bullet) :
    bulletsStep [b] =
      if 0 < b.lifetime - 1 then [Bullet.update b] else [] := by
  unfold bulletsStep
  by_cases h : 0 < b.lifetime - 1
  · simp [List.filter, Bullet.update, h]
  · simp [List.filter, Bullet.update, h]

lemma bulletsStep_iterate (b : Bullet) (hb : 0 < b.lifetime) (k : ℕ) :
    bulletsStep^[k] [b] =
      if (k : ℤ) < b.lifetime then [Bullet.update^[k] b] else [] := by
  induction k generalizing b with
  | zero => simp [hb]
  | succ j ih =>
    rw [Function.iterate_succ_apply, bulletsStep_singleton]
    by_cases h1 : 0 < b.lifetime - 1
    · rw [if_pos h1]
      have hup : (Bullet.update b).lifetime = b.lifetime - 1 := rfl
      rw [ih (Bullet.update b) (by rw [hup]; exact h1)]
      rw [hup, ← Function.iterate_succ_apply]
      by_cases h2 : ((j : ℤ) + 1) < b.lifetime
      · rw [if_pos (by omega), if_pos (by push_cast; omega)]
      · rw [if_neg (by omega), if_neg (by push_cast; omega)]
    · rw [if_neg h1, Function.iterate_fixed bulletsStep_nil]
      rw [if_neg (by push_cast; omega)]

lemma bulletsStep_mem_pos (bs : List Bullet) (b2 : Bullet)
    (h : b2 ∈ bulletsStep bs) : 0 < b2.lifetime := by
  unfold bulletsStep at h
  have := List.of_mem_filter h
  simpa using this

/-- C4: a bullet whose remaining lifetime is L, with L positive, is
still in the live collection after k group updates exactly when k < L,
its lifetime after k updates is L - k (strictly decreasing by one per
tick), and the live collection after any group update only ever holds
bullets of positive lifetime, so an expired bullet is never rendered or
collision-tested on a later tick. -/
theorem bullet_lifetime_countdown (b : Bullet) (k : ℕ)
    (hb : 0 < b.lifetime) :
    (bulletsStep^[k] [b] ≠ [] ↔ (k : ℤ) < b.lifetime) ∧
    (∀ b2 ∈ bulletsStep^[k] [b], b2.lifetime = b.lifetime - k) ∧
    (∀ (bs : List Bullet) (b2 : Bullet),
       b2 ∈ bulletsStep bs → 0 < b2.lifetime) := by
  rw [bulletsStep_iterate b hb k]
  refine ⟨?_, ?_, bulletsStep_mem_pos⟩
  · by_cases h : (k : ℤ) < b.lifetime
    · simp [h]
    · simp [h]
  · intro b2 hmem
    by_cases h : (k : ℤ) < b.lifetime
    · rw [if_pos h] at hmem
      rw [List.mem_singleton] at hmem
      rw [hmem]
      exact bullet_iterate_lifetime b k
    · rw [if_neg h] at hmem
      exact absurd hmem (List.not_mem_nil b2)

/-- Witness for bullet_lifetime_countdown at a fresh bullet of lifetime
60 and k = 3 ticks. -/
theorem bullet_lifetime_countdown_witness :
    (0 < Bullet.lifetime ⟨(100, 100), (1, 0), 60⟩) ∧
    ((bulletsStep^[3] [(⟨(100, 100), (1, 0), 60⟩ : Bullet)] ≠ [] ↔
        ((3 : ℕ) : ℤ) < Bullet.lifetime ⟨(100, 100), (1, 0), 60⟩) ∧
     (∀ b2 ∈ bulletsStep^[3] [(⟨(100, 100), (1, 0), 60⟩ : Bullet)],
        b2.lifetime = Bullet.lifetime ⟨(100, 100), (1, 0), 60⟩ - (3 : ℕ)) ∧
     (∀ (bs : List Bullet) (b2 : Bullet),
        b2 ∈ bulletsStep bs → 0 < b2.lifetime)) :=
  ⟨by norm_num,
   bullet_lifetime_countdown ⟨((100:ℚ), (100:ℚ)), ((1:ℚ), (0:ℚ)), 60⟩ 3
     (by norm_num)⟩

lemma colliderect_same_center (p : Player) (a : Asteroid)
    (hpos : a.position = p.position) (hsz : 1 ≤ a.size) :
    Rect.colliderect p.rect a.rect = true := by
  unfold Rect.colliderect Player.rect Asteroid.rect centerRect
  rw [hpos]
  rw [decide_eq_true_eq]
  dsimp only
  refine ⟨?_, ?_, ?_, ?_⟩ <;> omega

/-- C8: the ship versus asteroid check of the main loop leaves both the
asteroid and the bullet collections unchanged and, when some live
asteroid sits at the exact position of the ship and has nonzero size,
clears the running flag, terminating the run within the tick. -/
theorem ship_overlap_ends_run (p : Player) (bs : List Bullet)
    (asts : List Asteroid) (r : Bool) (a : Asteroid) (ha : a ∈ asts)
    (hpos : a.position = p.position) (hsz : 1 ≤ a.size) :
    (shipCheckStage p bs asts r).asteroids = asts ∧
    (shipCheckStage p bs asts r).bullets = bs ∧
    (shipCheckStage p bs asts r).running = false := by
  refine ⟨rfl, rfl, ?_⟩
  have hhit : spritecollideany p asts = true := by
    unfold spritecollideany
    rw [List.any_eq_true]
    exact ⟨a, ha, colliderect_same_center p a hpos hsz⟩
  show (if spritecollideany p asts then false else r) = false
  rw [hhit]
  rfl

/-- Witness for ship_overlap_ends_run: ship at (400, 300) and one
asteroid of size 50 at the same spot. -/
theorem ship_overlap_ends_run_witness :
    ((⟨(400, 300), (0, 0), 50⟩ : Asteroid) ∈
       [(⟨(400, 300), (0, 0), 50⟩ : Asteroid)] ∧
     Asteroid.position ⟨(400, 300), (0, 0), 50⟩ =
       Player.position ⟨(400, 300), (0, 0), 0⟩ ∧
     (1 : ℤ) ≤ Asteroid.size ⟨(400, 300), (0, 0), 50⟩) ∧
    ((shipCheckStage ⟨(400, 300), (0, 0), 0⟩ []
        [⟨(400, 300), (0, 0), 50⟩] true).asteroids =
       [⟨(400, 300), (0, 0), 50⟩] ∧
     (shipCheckStage ⟨(400, 300), (0, 0), 0⟩ []
        [⟨(400, 300), (0, 0), 50⟩] true).bullets = [] ∧
     (shipCheckStage ⟨((400:ℚ), (300:ℚ)), ((0:ℚ), (0:ℚ)), (0:ℚ)⟩ []
        [⟨((400:ℚ), (300:ℚ)), ((0:ℚ), (0:ℚ)), (50:ℤ)⟩] true).running = false) :=
  ⟨⟨List.mem_singleton.mpr rfl, rfl, by norm_num⟩,
   ship_overlap_ends_run ⟨(400, 300), (0, 0), 0⟩ []
     [⟨(400, 300), (0, 0), 50⟩] true ⟨(400, 300), (0, 0), 50⟩
     (List.mem_singleton.mpr rfl) rfl (by norm_num)⟩

lemma pass_snd_eq_nil_any (bs : List Bullet) (asts : List Asteroid) :
    (bulletAsteroidPass bs asts).2 =
      asts.filter fun a =>
        !(bs.any fun b2 => Rect.colliderect b2.rect a.rect) := by
  induction bs generalizing asts with
  | nil => simp [bulletAsteroidPass]
  | cons b bs ih =>
    have hsnd : (bulletAsteroidPass (b :: bs) asts).2 =
        (bulletAsteroidPass bs
          (asts.filter fun a => !(Rect.colliderect b.rect a.rect))).2 := by
      show (if _ then _ else _ : List Bullet × List Asteroid).2 = _
      split <;> rfl
    rw [hsnd, ih, List.filter_filter]
    apply List.filter_congr
    intro a _
    rw [List.any_cons, Bool.not_or, Bool.and_comm]

/-- C1 (amended): in the projectile versus obstacle pass, each bullet
in iteration order is tested against the asteroids still live, and all
overlapping asteroids are removed, not just the first: an asteroid
survives the pass exactly when no bullet of the pass overlaps it, and a
single bullet is itself removed exactly when at least one asteroid
overlapped it. -/
theorem bullet_pass_removes_all_overlaps (bs : List Bullet)
    (asts : List Asteroid) (b : Bullet) :
    (bulletAsteroidPass bs asts).2 =
      asts.filter (fun a =>
        !(bs.any fun b2 => Rect.colliderect b2.rect a.rect)) ∧
    (bulletAsteroidPass [b] asts).1 =
      (if asts.any (fun a => Rect.colliderect b.rect a.rect)
       then [] else [b]) := by
  refine ⟨pass_snd_eq_nil_any bs asts, ?_⟩
  show (if _ then _ else _ : List Bullet × List Asteroid).1 = _
  split
  · rfl
  · rfl

/-- Counterexample to C1 as stated: the single bullet at (100, 100)
overlaps both asteroids of the pass, and after one pass both asteroids
are gone (and the bullet too), so one projectile removed two obstacles
in one tick, not at most one. -/
theorem bullet_pass_single_removes_two :
    Rect.colliderect (Bullet.rect ⟨(100, 100), (0, 0), 10⟩)
      (Asteroid.rect ⟨(100, 100), (0, 0), 50⟩) = true ∧
    Rect.colliderect (Bullet.rect ⟨(100, 100), (0, 0), 10⟩)
      (Asteroid.rect ⟨(110, 100), (1, 0), 50⟩) = true ∧
    (bulletAsteroidPass [⟨(100, 100), (0, 0), 10⟩]
      [⟨(100, 100), (0, 0), 50⟩, ⟨((110:ℚ), (100:ℚ)), ((1:ℚ), (0:ℚ)), (50:ℤ)⟩]).2
      = [] := by
  refine ⟨?_, ?_, ?_⟩
  · norm_num [Rect.colliderect, Bullet.rect, Asteroid.rect, centerRect, pyInt]
  · norm_num [Rect.colliderect, Bullet.rect, Asteroid.rect, centerRect, pyInt]
  · rw [pass_snd_eq_nil_any]
    norm_num [Rect.colliderect, Bullet.rect, Asteroid.rect, centerRect, pyInt,
      List.filter, List.any]

/-- C7 (amended): firing reacts to key-down events of the space bar,
not to the held key state, so holding fire across consecutive ticks
produces one bullet at the press and none on the later ticks with no
event; but a tick creates one bullet per space key-down event in its
queue, so a tick whose queue carries several press events creates
several bullets. -/
theorem fire_one_bullet_per_press_event (p : Player) (cb sb : ℚ)
    (events : List Event) :
    (bulletsFromEvents p cb sb events).length =
      events.countP (fun e => decide (e = Event.keydownSpace)) ∧
    (bulletsFromEvents p cb sb [Event.keydownSpace]).length = 1 ∧
    (bulletsFromEvents p cb sb []).length = 0 := by
  refine ⟨?_, rfl, rfl⟩
  induction events with
  | nil => rfl
  | cons e es ih =>
    by_cases h : e = Event.keydownSpace
    · simp [bulletsFromEvents, List.countP_cons, h] at *
      omega
    · simp [bulletsFromEvents, List.countP_cons, h] at *
      exact ih

/-- Counterexample to C7 as stated: a tick whose event queue holds two
space key-down events creates two bullets, so a single tick can produce
more than one projectile. -/
theorem two_press_events_two_bullets :
    (bulletsFromEvents ⟨((400:ℚ), (300:ℚ)), ((0:ℚ), (0:ℚ)), (0:ℚ)⟩ 1 0
      [Event.keydownSpace, Event.keydownSpace]).length = 2 ∧
    ¬ ((bulletsFromEvents ⟨((400:ℚ), (300:ℚ)), ((0:ℚ), (0:ℚ)), (0:ℚ)⟩ 1 0
      [Event.keydownSpace, Event.keydownSpace]).length ≤ 1) := by
  refine ⟨rfl, ?_⟩
  show ¬ (2 ≤ 1)
  omega

lemma runningAfterEvents_false (escape : Bool) (events : List Event) :
    runningAfterEvents escape events false = false := by
  induction events with
  | nil => rfl
  | cons e es ih =>
    unfold runningAfterEvents at *
    rw [List.foldl_cons, ite_self]
    exact ih

/-- C2 (amended): a quit event observed during event processing clears
the running flag, so the loop exits before the next tick, but the
current tick still performs every remaining step: the resulting state
is exactly the state the same tick computes without the quit event,
with only the running flag forced to false. -/
theorem quit_clears_flag_but_tick_completes (keys : Keys)
    (events : List Event) (c s cb sb : ℚ) (st : GameState) :
    tick keys (Event.quit :: events) c s cb sb st =
      { tick keys events c s cb sb st with running := false } := by
  have hb : bulletsFromEvents st.player cb sb (Event.quit :: events) =
      bulletsFromEvents st.player cb sb events := by
    simp [bulletsFromEvents]
  have hr : runningAfterEvents keys.escape (Event.quit :: events)
      st.running = false := by
    unfold runningAfterEvents
    rw [List.foldl_cons]
    rw [if_pos (Or.inl rfl)]
    exact runningAfterEvents_false keys.escape events
  show shipCheckStage _ _ _ _ = _
  rw [hb, hr]
  unfold tick shipCheckStage
  rw [ite_self]

/-- Counterexample to C2 as stated: in a tick whose only event is quit,
the running flag ends false, and yet the ship still moves from
(400, 300) to (403, 300), the bullet is still updated and the updated
bullet still collides with the asteroid, which is removed, so ship,
projectile and obstacle updates and collision tests all ran in the
quit tick. -/
theorem quit_tick_still_updates_everything :
    (tick ⟨false, false, false, false⟩ [Event.quit] 0 0 0 0
      ⟨⟨(400, 300), (3, 0), 0⟩, [⟨(100, 100), (1, 0), 5⟩],
       [⟨((101:ℚ), (100:ℚ)), ((0:ℚ), (1:ℚ)), (50:ℤ)⟩], true⟩).running = false ∧
    (tick ⟨false, false, false, false⟩ [Event.quit] 0 0 0 0
      ⟨⟨(400, 300), (3, 0), 0⟩, [⟨(100, 100), (1, 0), 5⟩],
       [⟨((101:ℚ), (100:ℚ)), ((0:ℚ), (1:ℚ)), (50:ℤ)⟩], true⟩).player.position =
      (403, 300) ∧
    (tick ⟨false, false, false, false⟩ [Event.quit] 0 0 0 0
      ⟨⟨(400, 300), (3, 0), 0⟩, [⟨(100, 100), (1, 0), 5⟩],
       [⟨((101:ℚ), (100:ℚ)), ((0:ℚ), (1:ℚ)), (50:ℤ)⟩], true⟩).asteroids = [] ∧
    (tick ⟨false, false, false, false⟩ [Event.quit] 0 0 0 0
      ⟨⟨(400, 300), (3, 0), 0⟩, [⟨(100, 100), (1, 0), 5⟩],
       [⟨((101:ℚ), (100:ℚ)), ((0:ℚ), (1:ℚ)), (50:ℤ)⟩], true⟩).bullets = [] := by
  refine ⟨?_, ?_, ?_, ?_⟩ <;>
    norm_num [tick, shipCheckStage, spritecollideany, runningAfterEvents,
      bulletsFromEvents, Player.update, Player.thrustVel, bulletsStep,
      Bullet.update, Asteroid.update, bulletAsteroidPass, wrap_position,
      wrapPos, qmod, fieldW, fieldH, Rect.colliderect, Bullet.rect,
      Asteroid.rect, Player.rect, centerRect, pyInt, List.filter, List.any,
      noKeys]
